import Mathlib

/-!
Verification of the Swiss-tournament core (`vagrant/tournament/tournament.py`).

The repository stores players and matches in a PostgreSQL database and
derives standings and pairings by SQL queries.  We embed the database state
as two lists (rows of the `players` and `matches` tables, in insertion
order, since both tables are append-only until a bulk delete) and translate
each operation's query into a Lean function over that state.

The SQL schema and the `winners` / `losers` views live in a schema file that
is not part of the provided sources; where their content matters it is
modelled from the spec (see the doc comments marked "Modelled from the
spec").
-/

namespace Tournament

/-- Row of the `players` table: a serial `player_id` and the sanitized
`player_name`.  Registration order is the list order. -/
structure Player where
  player_id : Nat
  player_name : String
deriving DecidableEq

/-- Row of the `matches` table: `win_player_id` and `lose_player_id`,
inserted by `reportMatch`. -/
structure MatchRow where
  win_player_id : Nat
  lose_player_id : Nat
deriving DecidableEq

/-- Database state: the two tables, rows in insertion order. -/
structure DB where
  players : List Player
  matchRows : List MatchRow
deriving DecidableEq

/-- Modelled from the spec: the `winners` view (not under `src/`; the code
comment says the views "group winners and losers from MATCHES table", and
§4.1 of the spec says wins are the count of appearances as `winner_id`).
`winsOf db pid` is the number of match rows whose winner is `pid`. -/
def winsOf (db : DB) (pid : Nat) : Nat :=
  db.matchRows.countP (fun m => decide (m.win_player_id = pid))

/-- Modelled from the spec: the `losers` view, symmetrically — the number of
match rows whose loser is `pid`. -/
def lossOf (db : DB) (pid : Nat) : Nat :=
  db.matchRows.countP (fun m => decide (m.lose_player_id = pid))

/-- One row of the `playerStandings()` result:
`(player_id, player_name, matches_won, total_matches)`. -/
structure StandingRow where
  player_id : Nat
  player_name : String
  matches_won : Nat
  total_matches : Nat
deriving DecidableEq

/-- Embedding of `playerStandings()`.  The query builds a CTE
`player_standing` joining the `winners` and `losers` views with
`COALESCE(wins,0)`, `COALESCE(loss,0)` and
`total = COALESCE(wins,0)+COALESCE(loss,0)`, then takes
`players FULL OUTER JOIN player_standing` selecting
`(players.player_id, player_name, COALESCE(wins,0), COALESCE(total,0))`.

Under the schema's referential constraints (modelled from the spec's data
model, which makes both match fields Player references), every
`player_standing` row matches a `players` row, so the full outer join yields
exactly one row per registered player, a zero-match player getting zeros via
COALESCE.  The query has no ORDER BY, so SQL leaves the row order
unspecified; we model it as the left-table (registration) order the join
naturally produces.  In particular the embedding performs no sort. -/
def playerStandings (db : DB) : List StandingRow :=
  db.players.map (fun p =>
    ⟨p.player_id, p.player_name, winsOf db p.player_id,
      winsOf db p.player_id + lossOf db p.player_id⟩)

/-- Embedding of `countPlayers()`: `SELECT COUNT(player_id) FROM players`. -/
def countPlayers (db : DB) : Nat :=
  db.players.length

/-- Embedding of `reportMatch(winner, loser)`: inserts one row into
`matches`. -/
def reportMatch (db : DB) (winner loser : Nat) : DB :=
  ⟨db.players, db.matchRows ++ [⟨winner, loser⟩]⟩

/-- One element of the `swissPairings()` result:
`(id1, name1, id2, name2)`. -/
structure PairRow where
  id1 : Nat
  name1 : String
  id2 : Nat
  name2 : String
deriving DecidableEq

/-- The list comprehension of `swissPairings()`:
`[(s[i][0], s[i][1], s[i+1][0], s[i+1][1]) for i in xrange(0, len(s), 2)]`,
walking the standings two at a time.  It is only reached after the
even-length guard, so the `| _ => []` fallback is never hit on a singleton
in the embedded program. -/
def pairUp : List StandingRow → List PairRow
  | a :: b :: rest =>
      ⟨a.player_id, a.player_name, b.player_id, b.player_name⟩ :: pairUp rest
  | _ => []

/-- Embedding of `swissPairings()` as a function of the standings list it
observes: if `len(standings) % 2 != 0` it raises
`Exception("Need even number of players for pairing.")`, else it returns
the comprehension's pair list. -/
def swissPairingsOf (standings : List StandingRow) : Except String (List PairRow) :=
  if standings.length % 2 ≠ 0 then
    Except.error "Need even number of players for pairing."
  else
    Except.ok (pairUp standings)

/-- Embedding of `swissPairings()`: it first calls `playerStandings()` and
then depends on nothing but that list. -/
def swissPairings (db : DB) : Except String (List PairRow) :=
  swissPairingsOf (playerStandings db)

/-- Modelled from the spec: well-formedness the missing schema enforces —
serial primary-key ids are pairwise distinct, and both fields of every
match row reference registered players ("Match: two Player references,
both required"). -/
abbrev WF (db : DB) : Prop :=
  (db.players.map Player.player_id).Nodup ∧
  ∀ m ∈ db.matchRows,
    m.win_player_id ∈ db.players.map Player.player_id ∧
    m.lose_player_id ∈ db.players.map Player.player_id

/-- The exception raised by the store, `psycopg2.DatabaseError`, carrying
its message. -/
inductive DbError where
  | databaseError : String → DbError
deriving DecidableEq

/-- Outcome of one core operation as its caller sees it: a normal return,
an exception propagated to the caller, or process termination via
`sys.exit`. -/
inductive CallResult (α : Type) where
  | ok : α → CallResult α
  | raised : DbError → CallResult α
  | exited : Nat → CallResult α
deriving DecidableEq

/-- Embedding of `db_transact`'s control flow.  The store either performs
the transaction (`Except.ok`) or fails with a `DatabaseError`; on failure
the code rolls back, prints a diagnostic and calls `sys.exit(1)` — the
exception never reaches the caller. -/
def db_transact (store : Except DbError Unit) : CallResult Unit :=
  match store with
  | Except.ok u => CallResult.ok u
  | Except.error _ => CallResult.exited 1

/-- Embedding of `playerStandings()`'s error path: on a successful fetch it
returns the row list (`[row for row in rows]`); on `DatabaseError` it rolls
back, prints and calls `sys.exit(1)`, exactly like `db_transact`. -/
def playerStandingsCall (store : Except DbError (List StandingRow)) :
    CallResult (List StandingRow) :=
  match store with
  | Except.ok rows => CallResult.ok (rows.map (fun row => row))
  | Except.error _ => CallResult.exited 1

/-! Helper lemmas (shared; not tied to a single claim). -/

deriving instance DecidableEq for Except

theorem pairUp_length : ∀ s : List StandingRow, (pairUp s).length = s.length / 2
  | [] => by simp [pairUp]
  | [_] => by simp [pairUp]
  | _ :: _ :: rest => by
      have ih := pairUp_length rest
      simp only [pairUp, List.length_cons, ih]
      omega

theorem standings_ids (db : DB) :
    (playerStandings db).map StandingRow.player_id = db.players.map Player.player_id := by
  simp [playerStandings, List.map_map, Function.comp]

/-! Theorems for the claims. -/

/-- C1 (code bug witness): with players (1,"A"), (2,"B") registered in that
order and the single match (winner 2, loser 1) recorded, `playerStandings`
returns the rows in join (registration) order — the query has no ORDER BY —
so the row with 0 wins precedes the row with 1 win and the output is not
sorted by wins descending, contrary to the claim and to the function's own
docstring ("sorted by wins", "first entry ... the player in first place"). -/
theorem playerStandings_not_sorted :
    playerStandings ⟨[⟨1, "A"⟩, ⟨2, "B"⟩], [⟨2, 1⟩]⟩ =
      [⟨1, "A", 0, 1⟩, ⟨2, "B", 1, 1⟩] ∧
    ¬ List.Pairwise (fun a b => b.matches_won ≤ a.matches_won)
      (playerStandings ⟨[⟨1, "A"⟩, ⟨2, "B"⟩], [⟨2, 1⟩]⟩) := by
  constructor
  · rfl
  · intro h
    have := List.rel_of_pairwise_cons h (List.mem_singleton.mpr rfl)
    exact absurd this (by decide)

/-- C2 (counterexample): on the odd-length standings list
`[(1, "A", 0, 0)]` the code does fail, but the exception it raises is the
builtin `Exception` with message "Need even number of players for
pairing.", not an `InvalidStateError` with message "cannot pair an odd
number of players" as the claim states. -/
theorem swissPairings_message_counterexample :
    ([(⟨1, "A", 0, 0⟩ : StandingRow)].length % 2 = 1) ∧
    swissPairingsOf [⟨1, "A", 0, 0⟩] ≠
      Except.error "cannot pair an odd number of players" ∧
    swissPairingsOf [⟨1, "A", 0, 0⟩] =
      Except.error "Need even number of players for pairing." := by
  refine ⟨rfl, ?_, rfl⟩
  decide

/-- C2 (amended): `swissPairings` fails — raising a builtin `Exception`
whose message is "Need even number of players for pairing." — if and only
if the number of standings entries is odd; when that count n is even
(including n = 0) it returns a pairing list of length exactly n / 2. -/
theorem swissPairingsOf_parity (s : List StandingRow) :
    (s.length % 2 = 1 ↔
      swissPairingsOf s = Except.error "Need even number of players for pairing.") ∧
    (s.length % 2 = 0 →
      ∃ ps, swissPairingsOf s = Except.ok ps ∧ ps.length = s.length / 2) := by
  rcases Nat.mod_two_eq_zero_or_one s.length with h | h
  · constructor
    · constructor
      · intro h1
        omega
      · intro he
        simp [swissPairingsOf, h] at he
    · intro _
      exact ⟨pairUp s, by simp [swissPairingsOf, h], pairUp_length s⟩
  · constructor
    · constructor
      · intro _
        simp [swissPairingsOf, h]
      · intro _
        exact h
    · intro h0
      omega

/-- C2 witness: the amended theorem applied at the empty standings list
(even count 0): pairing succeeds with an empty list of length 0 / 2. -/
theorem swissPairingsOf_parity_witness :
    ∃ ps, swissPairingsOf [] = Except.ok ps ∧
      ps.length = ([] : List StandingRow).length / 2 :=
  (swissPairingsOf_parity []).2 rfl

/-- C6: the list returned by `playerStandings` always has exactly one row
per registered player, so its length equals `countPlayers`. -/
theorem playerStandings_length (db : DB) :
    (playerStandings db).length = countPlayers db := by
  simp [playerStandings, countPlayers]

/-- C10: `swissPairings` is deterministic given the standings — any two
database states on which `playerStandings` yields the same sequence produce
identical pairing lists, since the pairing output depends on nothing but
that sequence. -/
theorem swissPairings_deterministic (db1 db2 : DB)
    (h : playerStandings db1 = playerStandings db2) :
    swissPairings db1 = swissPairings db2 := by
  simp only [swissPairings, h]

/-- C10 witness: two genuinely different match tables — the same two
matches reported in opposite orders — give equal standings, and the
deterministic pairing theorem yields identical pairings. -/
theorem swissPairings_deterministic_witness :
    swissPairings ⟨[⟨1, "A"⟩, ⟨2, "B"⟩], [⟨1, 2⟩, ⟨2, 1⟩]⟩ =
    swissPairings ⟨[⟨1, "A"⟩, ⟨2, "B"⟩], [⟨2, 1⟩, ⟨1, 2⟩]⟩ :=
  swissPairings_deterministic _ _ (by decide)

/-- C8 (counterexample): when the store fails with a `DatabaseError`
(here: "connection failed"), `db_transact` does not propagate the error to
the caller — it terminates the process via `sys.exit(1)` — so the claim
that the error reaches the caller unmodified is false. -/
theorem db_transact_exit_counterexample :
    db_transact (Except.error (DbError.databaseError "connection failed")) =
      CallResult.exited 1 ∧
    db_transact (Except.error (DbError.databaseError "connection failed")) ≠
      CallResult.raised (DbError.databaseError "connection failed") := by
  refine ⟨rfl, ?_⟩
  decide

/-- C8 (amended): when the underlying data store fails during a core
operation, the core neither retries nor propagates the error: it rolls
back, prints a diagnostic and exits the process with status 1.  No
`DatabaseError` is ever raised to the caller and no result is returned. -/
theorem db_error_exits (e : DbError) :
    db_transact (Except.error e) = CallResult.exited 1 ∧
    playerStandingsCall (Except.error e) = CallResult.exited 1 ∧
    (∀ e2, db_transact (Except.error e) ≠ CallResult.raised e2) ∧
    (∀ rows, playerStandingsCall (Except.error e) ≠ CallResult.ok rows) := by
  refine ⟨rfl, rfl, ?_, ?_⟩
  · intro e2 h
    exact CallResult.noConfusion h
  · intro rows h
    exact CallResult.noConfusion h

/-- C8 witness: the amended theorem applied at a concrete store failure. -/
theorem db_error_exits_witness :
    db_transact (Except.error (DbError.databaseError "deadlock")) =
      CallResult.exited 1 ∧
    playerStandingsCall (Except.error (DbError.databaseError "deadlock")) =
      CallResult.exited 1 ∧
    (∀ e2, db_transact (Except.error (DbError.databaseError "deadlock")) ≠
      CallResult.raised e2) ∧
    (∀ rows, playerStandingsCall (Except.error (DbError.databaseError "deadlock")) ≠
      CallResult.ok rows) :=
  db_error_exits (DbError.databaseError "deadlock")

/-- C4: a registered player that appears in no recorded match still gets a
standings row, with wins = 0 and matches played = 0 — the full outer join
plus COALESCE never drops the player or leaves the counters null. -/
theorem playerStandings_zero_match (db : DB) (p : Player) (hp : p ∈ db.players)
    (habs : ∀ m ∈ db.matchRows,
      m.win_player_id ≠ p.player_id ∧ m.lose_player_id ≠ p.player_id) :
    (⟨p.player_id, p.player_name, 0, 0⟩ : StandingRow) ∈ playerStandings db := by
  have hw : winsOf db p.player_id = 0 := by
    rw [winsOf, List.countP_eq_zero]
    intro m hm
    simp only [decide_eq_true_eq]
    exact (habs m hm).1
  have hl : lossOf db p.player_id = 0 := by
    rw [lossOf, List.countP_eq_zero]
    intro m hm
    simp only [decide_eq_true_eq]
    exact (habs m hm).2
  refine List.mem_map.mpr ⟨p, hp, ?_⟩
  simp [hw, hl]

/-- C4 witness: player 1 ("A") plays no match while players 2 and 3 do;
the row (1, "A", 0, 0) is nevertheless present in the standings. -/
theorem playerStandings_zero_match_witness :
    (⟨1, "A", 0, 0⟩ : StandingRow) ∈
      playerStandings ⟨[⟨1, "A"⟩, ⟨2, "B"⟩, ⟨3, "C"⟩], [⟨2, 3⟩]⟩ :=
  playerStandings_zero_match ⟨[⟨1, "A"⟩, ⟨2, "B"⟩, ⟨3, "C"⟩], [⟨2, 3⟩]⟩
    ⟨1, "A"⟩ (by decide) (by decide)

/-- C5: in every standings row the matches-played column equals the
player's wins plus the player's losses, wins being the appearances as
`win_player_id` and losses the appearances as `lose_player_id` in the same
match table. -/
theorem standings_invariant (db : DB) (r : StandingRow)
    (hr : r ∈ playerStandings db) :
    r.matches_won = winsOf db r.player_id ∧
    r.total_matches = winsOf db r.player_id + lossOf db r.player_id := by
  rcases List.mem_map.mp hr with ⟨p, _, hpe⟩
  subst hpe
  exact ⟨rfl, rfl⟩

/-- C5 witness: the invariant instantiated on the standings row of player 1
after the single match (winner 1, loser 2). -/
theorem standings_invariant_witness :
    (1 = winsOf ⟨[⟨1, "A"⟩, ⟨2, "B"⟩], [⟨1, 2⟩]⟩ 1) ∧
    (1 = winsOf ⟨[⟨1, "A"⟩, ⟨2, "B"⟩], [⟨1, 2⟩]⟩ 1 +
         lossOf ⟨[⟨1, "A"⟩, ⟨2, "B"⟩], [⟨1, 2⟩]⟩ 1) :=
  standings_invariant ⟨[⟨1, "A"⟩, ⟨2, "B"⟩], [⟨1, 2⟩]⟩ ⟨1, "A", 1, 1⟩ (by decide)

theorem sum_map_add_split {α : Type} (f g : α → Nat) :
    ∀ l : List α, (l.map (fun x => f x + g x)).sum = (l.map f).sum + (l.map g).sum
  | [] => rfl
  | a :: rest => by
      simp only [List.map_cons, List.sum_cons, sum_map_add_split f g rest]
      omega

theorem sum_indicator_zero (w : Nat) : ∀ ids : List Nat, w ∉ ids →
    (ids.map (fun pid => if w = pid then 1 else 0)).sum = 0
  | [], _ => rfl
  | a :: rest, h => by
      have h1 : w ≠ a := fun e => h (e ▸ List.mem_cons_self a rest)
      have h2 : w ∉ rest := fun e => h (List.mem_cons_of_mem a e)
      simp [h1, sum_indicator_zero w rest h2]

theorem sum_indicator_one (w : Nat) : ∀ ids : List Nat, ids.Nodup → w ∈ ids →
    (ids.map (fun pid => if w = pid then 1 else 0)).sum = 1
  | [], _, hm => absurd hm (List.not_mem_nil w)
  | a :: rest, hnd, hm => by
      rcases List.mem_cons.mp hm with he | hm2
      · subst he
        have hz : w ∉ rest := (List.nodup_cons.mp hnd).1
        simp [sum_indicator_zero w rest hz]
      · have h1 : w ≠ a := by
          intro e
          exact (List.nodup_cons.mp hnd).1 (e ▸ hm2)
        simp [h1, sum_indicator_one w rest (List.nodup_cons.mp hnd).2 hm2]

theorem sum_countP_wins : ∀ (ms : List MatchRow) (ids : List Nat), ids.Nodup →
    (∀ m ∈ ms, m.win_player_id ∈ ids) →
    (ids.map (fun pid => ms.countP (fun m => decide (m.win_player_id = pid)))).sum
      = ms.length
  | [], ids, _, _ => by simp
  | m :: ms, ids, hnd, hall => by
      have ih := sum_countP_wins ms ids hnd
        (fun x hx => hall x (List.mem_cons_of_mem m hx))
      have hm := hall m (List.mem_cons_self m ms)
      simp only [List.countP_cons, decide_eq_true_eq]
      rw [sum_map_add_split
        (fun pid => ms.countP (fun x => decide (x.win_player_id = pid)))
        (fun pid => if m.win_player_id = pid then 1 else 0) ids]
      rw [ih, sum_indicator_one m.win_player_id ids hnd hm]
      simp

/-- C7: the wins column of the standings sums, over all players, to the
number of recorded matches — each match contributes exactly one win, to its
winner. -/
theorem standings_wins_sum (db : DB) (h : WF db) :
    ((playerStandings db).map StandingRow.matches_won).sum = db.matchRows.length := by
  have hmap : (playerStandings db).map StandingRow.matches_won
      = (db.players.map Player.player_id).map
          (fun pid => db.matchRows.countP (fun m => decide (m.win_player_id = pid))) := by
    simp [playerStandings, List.map_map, Function.comp, winsOf]
  rw [hmap]
  exact sum_countP_wins db.matchRows (db.players.map Player.player_id) h.1
    (fun m hm => (h.2 m hm).1)

/-- C7 witness: two players, one recorded match — the standings wins sum to
1, the size of the match table. -/
theorem standings_wins_sum_witness :
    ((playerStandings ⟨[⟨1, "A"⟩, ⟨2, "B"⟩], [⟨1, 2⟩]⟩).map
      StandingRow.matches_won).sum
      = (⟨[⟨1, "A"⟩, ⟨2, "B"⟩], [⟨1, 2⟩]⟩ : DB).matchRows.length :=
  standings_wins_sum ⟨[⟨1, "A"⟩, ⟨2, "B"⟩], [⟨1, 2⟩]⟩ (by decide)

theorem pairUp_getElem? : ∀ (s : List StandingRow) (i : Nat) (a b : StandingRow),
    s[2*i]? = some a → s[2*i+1]? = some b →
    (pairUp s)[i]? = some ⟨a.player_id, a.player_name, b.player_id, b.player_name⟩
  | [], _, _, _, ha, _ => by simp at ha
  | [_], i, _, _, ha, hb => by
      cases i with
      | zero => simp at hb
      | succ n =>
          have e : 2 * (n + 1) = (2 * n + 1) + 1 := by ring
          rw [e, List.getElem?_cons_succ] at ha
          simp at ha
  | x :: y :: rest, i, a, b, ha, hb => by
      cases i with
      | zero =>
          have ha2 : x = a := by simpa using ha
          have hb2 : y = b := by simpa using hb
          subst ha2
          subst hb2
          simp [pairUp]
      | succ n =>
          have e1 : 2 * (n + 1) = (2 * n + 1) + 1 := by ring
          have e2 : 2 * (n + 1) + 1 = ((2 * n + 1) + 1) + 1 := by ring
          rw [e1, List.getElem?_cons_succ, List.getElem?_cons_succ] at ha
          rw [e2, List.getElem?_cons_succ, List.getElem?_cons_succ] at hb
          have ih := pairUp_getElem? rest n a b ha hb
          simpa [pairUp] using ih

/-- Flattening of a pairing list back into the sequence of player ids it
carries, first member first. -/
def pairIds : List PairRow → List Nat
  | [] => []
  | p :: ps => p.id1 :: p.id2 :: pairIds ps

theorem pairIds_pairUp : ∀ s : List StandingRow, s.length % 2 = 0 →
    pairIds (pairUp s) = s.map StandingRow.player_id
  | [], _ => rfl
  | [_], h => by simp at h
  | a :: b :: rest, h => by
      have h2 : rest.length % 2 = 0 := by
        simp only [List.length_cons] at h
        omega
      simp [pairUp, pairIds, pairIds_pairUp rest h2]

theorem pairUp_countP_zero (pid : Nat) : ∀ s : List StandingRow,
    pid ∉ s.map StandingRow.player_id →
    (pairUp s).countP (fun p => decide (p.id1 = pid ∨ p.id2 = pid)) = 0
  | [], _ => rfl
  | [_], _ => by simp [pairUp]
  | a :: b :: rest, hn => by
      have hna : a.player_id ≠ pid := fun e => hn (by
        simp only [List.map_cons, List.mem_cons]
        exact Or.inl e.symm)
      have hnb : b.player_id ≠ pid := fun e => hn (by
        simp only [List.map_cons, List.mem_cons]
        exact Or.inr (Or.inl e.symm))
      have hnr : pid ∉ rest.map StandingRow.player_id := fun e => hn (by
        simp only [List.map_cons, List.mem_cons]
        exact Or.inr (Or.inr e))
      have ih := pairUp_countP_zero pid rest hnr
      simp only [pairUp, List.countP_cons]
      rw [ih]
      simp [hna, hnb]

theorem pairUp_countP_one (pid : Nat) : ∀ s : List StandingRow,
    s.length % 2 = 0 →
    (s.map StandingRow.player_id).Nodup →
    pid ∈ s.map StandingRow.player_id →
    (pairUp s).countP (fun p => decide (p.id1 = pid ∨ p.id2 = pid)) = 1
  | [], _, _, hm => absurd hm (List.not_mem_nil pid)
  | [_], he, _, _ => by simp at he
  | a :: b :: rest, he, hnd, hm => by
      have he2 : rest.length % 2 = 0 := by
        simp only [List.length_cons] at he
        omega
      simp only [List.map_cons] at hnd hm
      have h1 := (List.nodup_cons.mp hnd).1
      have h2 := (List.nodup_cons.mp hnd).2
      have h3 := (List.nodup_cons.mp h2).1
      have h4 := (List.nodup_cons.mp h2).2
      rcases List.mem_cons.mp hm with he1 | hm2
      · have hz : pid ∉ rest.map StandingRow.player_id := fun hx =>
          h1 (List.mem_cons_of_mem _ (he1 ▸ hx))
        have ih0 := pairUp_countP_zero pid rest hz
        simp only [pairUp, List.countP_cons]
        rw [ih0]
        simp [he1.symm]
      · rcases List.mem_cons.mp hm2 with he2b | hm3
        · have hz : pid ∉ rest.map StandingRow.player_id := fun hx =>
            h3 (he2b ▸ hx)
          have ih0 := pairUp_countP_zero pid rest hz
          simp only [pairUp, List.countP_cons]
          rw [ih0]
          simp [he2b.symm]
        · have hna : a.player_id ≠ pid := fun e =>
            h1 (List.mem_cons_of_mem _ (e.symm ▸ hm3))
          have hnb : b.player_id ≠ pid := fun e => h3 (e.symm ▸ hm3)
          have ih := pairUp_countP_one pid rest he2 h4 hm3
          simp only [pairUp, List.countP_cons]
          rw [ih]
          simp [hna, hnb]

/-- C3: on an even-length standings the pairing pairs index 2i with index
2i+1, first-ranked member first; flattening the pairs reproduces the
standings' id sequence, and every player id occurring in the standings
appears in exactly one pair. -/
theorem swissPairings_adjacent (db : DB) (hwf : WF db)
    (he : (playerStandings db).length % 2 = 0) :
    ∃ ps, swissPairings db = Except.ok ps ∧
      (∀ i a b, (playerStandings db)[2*i]? = some a →
        (playerStandings db)[2*i+1]? = some b →
        ps[i]? = some ⟨a.player_id, a.player_name, b.player_id, b.player_name⟩) ∧
      pairIds ps = (playerStandings db).map StandingRow.player_id ∧
      ∀ pid ∈ (playerStandings db).map StandingRow.player_id,
        ps.countP (fun p => decide (p.id1 = pid ∨ p.id2 = pid)) = 1 := by
  have hnd : ((playerStandings db).map StandingRow.player_id).Nodup := by
    rw [standings_ids]
    exact hwf.1
  refine ⟨pairUp (playerStandings db), ?_, ?_, ?_, ?_⟩
  · simp [swissPairings, swissPairingsOf, he]
  · intro i a b ha hb
    exact pairUp_getElem? (playerStandings db) i a b ha hb
  · exact pairIds_pairUp (playerStandings db) he
  · intro pid hpid
    exact pairUp_countP_one pid (playerStandings db) he hnd hpid

/-- C3 witness: the adjacency theorem instantiated on two registered
players with no matches. -/
theorem swissPairings_adjacent_witness :
    ∃ ps, swissPairings ⟨[⟨1, "A"⟩, ⟨2, "B"⟩], []⟩ = Except.ok ps ∧
      (∀ i a b, (playerStandings ⟨[⟨1, "A"⟩, ⟨2, "B"⟩], []⟩)[2*i]? = some a →
        (playerStandings ⟨[⟨1, "A"⟩, ⟨2, "B"⟩], []⟩)[2*i+1]? = some b →
        ps[i]? = some ⟨a.player_id, a.player_name, b.player_id, b.player_name⟩) ∧
      pairIds ps =
        (playerStandings ⟨[⟨1, "A"⟩, ⟨2, "B"⟩], []⟩).map StandingRow.player_id ∧
      ∀ pid ∈ (playerStandings ⟨[⟨1, "A"⟩, ⟨2, "B"⟩], []⟩).map StandingRow.player_id,
        ps.countP (fun p => decide (p.id1 = pid ∨ p.id2 = pid)) = 1 :=
  swissPairings_adjacent ⟨[⟨1, "A"⟩, ⟨2, "B"⟩], []⟩ (by decide) (by decide)

theorem pairUp_no_self : ∀ s : List StandingRow,
    (s.map StandingRow.player_id).Nodup → ∀ p ∈ pairUp s, p.id1 ≠ p.id2
  | [], _, p, hp => absurd hp (List.not_mem_nil p)
  | [_], _, p, hp => by simp [pairUp] at hp
  | a :: b :: rest, hnd, p, hp => by
      simp only [List.map_cons] at hnd
      have h1 := (List.nodup_cons.mp hnd).1
      have h2 := (List.nodup_cons.mp hnd).2
      rcases List.mem_cons.mp hp with he | hm
      · subst he
        show a.player_id ≠ b.player_id
        intro e
        exact h1 (List.mem_cons.mpr (Or.inl e))
      · exact pairUp_no_self rest (List.nodup_cons.mp h2).2 p hm

/-- C9: on an even-length standings list with pairwise-distinct player ids
every emitted pair has two distinct ids — no player is paired with
themselves. -/
theorem pairings_distinct (s : List StandingRow) (he : s.length % 2 = 0)
    (hnd : (s.map StandingRow.player_id).Nodup) :
    ∃ ps, swissPairingsOf s = Except.ok ps ∧ ∀ p ∈ ps, p.id1 ≠ p.id2 := by
  exact ⟨pairUp s, by simp [swissPairingsOf, he], pairUp_no_self s hnd⟩

/-- C9 witness: the no-self-pairing theorem instantiated on a concrete
two-row standings list with distinct ids. -/
theorem pairings_distinct_witness :
    ∃ ps, swissPairingsOf [⟨1, "A", 0, 0⟩, ⟨2, "B", 0, 0⟩] = Except.ok ps ∧
      ∀ p ∈ ps, p.id1 ≠ p.id2 :=
  pairings_distinct [⟨1, "A", 0, 0⟩, ⟨2, "B", 0, 0⟩] (by decide) (by decide)

end Tournament
